import Mathlib

/-!
Verification of the data alignment and transformation pipeline of the
truvalue repository: fetch-result normalization, calendar merge,
composite-index calculation, denominator/indexing transforms and the
fallback generator.  Series values are modelled as rationals; a failed
fetch is `none`; a JS `null`/`undefined` field is `none`.
-/

/-- A single (date, value) observation of one series. -/
structure TimePoint where
  date : String
  value : ℚ
deriving Repr, DecidableEq

/-- An ordered sequence of observations for one instrument. -/
abbrev Series := List TimePoint

/-- One merged (or chart) row: a month date plus one field per series key.
JS objects are modelled as association lists in insertion order; `none`
stands for a `null` (or absent) field. -/
structure Row where
  date : String
  fields : List (String × Option ℚ)
deriving Repr, DecidableEq

instance : Inhabited Row := ⟨⟨"", []⟩⟩

/-- Field access `row[key]` with JS `null`/`undefined` both collapsed to `none`. -/
def getField (r : Row) (k : String) : Option ℚ :=
  match r.fields.lookup k with
  | some v => v
  | none => none

/-- The test `d.date.substring(0, 7) === date.substring(0, 7)`: the month-level
join used by `mergeData` in both route variants. -/
def monthMatch (canonical : String) (p : TimePoint) : Bool :=
  p.date.take 7 == canonical.take 7

/-- The assignment `row[key] = point?.value || null` for one dataset: the first point of
the series in the same month; a value of `0` is falsy in JS and becomes
`null`. -/
def fieldFor (data : Option Series) (date : String) : Option ℚ :=
  match data with
  | none => none
  | some s =>
    match s.find? (monthMatch date) with
    | none => none
    | some p => if p.value = 0 then none else some p.value

/-- The row built for one canonical date by the inner loop of `mergeData`
(identical in both variants). -/
def mkRow (datasets : List (String × Option Series)) (date : String) : Row :=
  { date := date, fields := datasets.map (fun kd => (kd.1, fieldFor kd.2 date)) }

/-- The guard `if (row.SPX)`: the JS truthiness test gating row emission in
`src/app/api/data/route.js`. -/
def spxTruthy (r : Row) : Bool :=
  match getField r "SPX" with
  | some v => if v = 0 then false else true
  | none => false

/-- Function `mergeData` of `src/app/api/data/route.js`: one row per canonical
date, kept only when the SPX field is truthy. -/
def mergeData (datasets : List (String × Option Series)) (allDates : List String) : List Row :=
  (allDates.map (mkRow datasets)).filter spxTruthy

/-- Function `mergeData` of `src/unnamed/part_002`: the row is pushed whenever the
date string itself is truthy (`if (date) merged.push(row)`); there is no
reference-series gate. -/
def mergeDataP2 (datasets : List (String × Option Series)) (allDates : List String) : List Row :=
  (allDates.map (mkRow datasets)).filter (fun r => r.date != "")

/-- The inner loop of `calculateMag7` (route.js variant): the `values`
object for one date, or `none` when `allPresent` ends up false because
some stock has no point on that exact date. -/
def rowValues : List (String × Series) → String → Option (List (String × ℚ))
  | [], _ => some []
  | (n, s) :: rest, d =>
    match s.find? (fun p => p.date == d), rowValues rest d with
    | some p, some vs => some ((n, p.value) :: vs)
    | _, _ => none

/-- The inner loop of `calculateMag7` in `src/unnamed/part_002`: a `null`
dataset makes `allPresent` false (`if (!data) { allPresent = false;
break; }`), so no date is ever complete. -/
def rowValuesP2 : List (String × Option Series) → String → Option (List (String × ℚ))
  | [], _ => some []
  | (_, none) :: _, _ => none
  | (n, some s) :: rest, d =>
    match s.find? (fun p => p.date == d), rowValuesP2 rest d with
    | some p, some vs => some ((n, p.value) :: vs)
    | _, _ => none

/-- The `baseValues[name]` lookup; the JS access is on an object holding the
same keys, so the default is never reached in the modelled runs. -/
def lookupD (vs : List (String × ℚ)) (n : String) : ℚ :=
  match vs.lookup n with
  | some v => v
  | none => 0

/-- The date walk shared by both `calculateMag7` variants, with the
captured `baseValues` threaded explicitly (set once at the first
complete date, never recomputed). -/
def mag7Go (rv : String → Option (List (String × ℚ))) :
    Option (List (String × ℚ)) → List String → Series
  | _, [] => []
  | base, d :: ds =>
    match rv d with
    | none => mag7Go rv base ds
    | some values =>
      let base' := base.getD values
      let totalReturn := (values.map (fun nv => nv.2 / lookupD base' nv.1)).sum
      let avgReturn := totalReturn / (values.length : ℚ)
      { date := d, value := avgReturn * 100 } :: mag7Go rv (some base') ds

/-- Function `calculateMag7` of `src/app/api/data/route.js` (stocks already
filtered to non-null datasets by the caller). -/
def calculateMag7 (stocks : List (String × Series)) (dates : List String) : Series :=
  mag7Go (rowValues stocks) none dates

/-- Function `calculateMag7` of `src/unnamed/part_002` (datasets may be null). -/
def calculateMag7P2 (stocks : List (String × Option Series)) (dates : List String) : Series :=
  mag7Go (rowValuesP2 stocks) none dates

/-- The filter `Object.entries(mag7Stocks).filter(([_, v]) => v !== null)` of
route.js: the non-null component datasets, in order. -/
def validStocks (stocks : List (String × Option Series)) : List (String × Series) :=
  stocks.filterMap (fun nv => nv.2.map (fun s => (nv.1, s)))

/-- Number of available (non-null) components. -/
def availCount (stocks : List (String × Option Series)) : ℕ :=
  (stocks.filter (fun nv => nv.2.isSome)).length

/-- route.js: `Object.keys(validMag7Stocks).length >= 5 ?
calculateMag7(validMag7Stocks, allDates) : null`. -/
def mag7DataRoute (stocks : List (String × Option Series)) (dates : List String) :
    Option Series :=
  if 5 ≤ (validStocks stocks).length then some (calculateMag7 (validStocks stocks) dates)
  else none

/-- part_002: `validMag7Components >= 5 ? calculateMag7(mag7Stocks,
allDates) : null` - the quorum counts non-null datasets but the raw map,
nulls included, is what gets passed to the calculation. -/
def mag7DataP2 (stocks : List (String × Option Series)) (dates : List String) :
    Option Series :=
  if 5 ≤ availCount stocks then some (calculateMag7P2 stocks dates) else none

/-- Completeness `isComplete stocks d`: every stock has a point exactly on date `d`. -/
def isComplete (stocks : List (String × Series)) (d : String) : Bool :=
  stocks.all (fun ns => (ns.2.find? (fun p => p.date == d)).isSome)

/-! ## Denominator / indexing transformer (`src/real-terms-app/app/page.js`) -/

/-- The chart denominators offered by the dashboard. -/
inductive Denom
  | GOLD
  | HOUSES
  | PCE
  | USD
deriving Repr, DecidableEq

/-- The assets iterated by `Object.keys(ASSETS).forEach` in `page.js`. -/
def ASSETS : List String := ["SPX", "MAG7", "BTC", "GOLD", "SILVER", "URANIUM"]

/-- JS truthiness of a numeric field: `null`/`undefined` and `0` are falsy. -/
def truthy (o : Option ℚ) : Bool :=
  match o with
  | some v => if v = 0 then false else true
  | none => false

/-- Rounding `Math.round`: for the finite values modelled here, the integer
`⌊x + 0.5⌋`.  `Rat.floor` is the computable floor on `ℚ`. -/
def jsRound (q : ℚ) : ℤ := Rat.floor (q + 1/2)

/-- The step `Math.round(value * 10000) / 10000`: round to 4 decimal places. -/
def round4 (q : ℚ) : ℚ := (jsRound (q * 10000) : ℚ) / 10000

/-- The denominator transformation of `chartData` in `page.js`, applied to
one non-null asset value of one row.  Each branch fires only when the
divisor field is truthy; otherwise the value passes through unchanged. -/
def transformValue (denom : Denom) (latestPCE : Option ℚ) (row : Row) (value : ℚ) : ℚ :=
  if denom == Denom.PCE && truthy (getField row "PCE") && truthy latestPCE then
    value * (latestPCE.getD 0 / (getField row "PCE").getD 0)
  else if denom == Denom.GOLD && truthy (getField row "GOLD") then
    value / (getField row "GOLD").getD 0
  else if denom == Denom.HOUSES && truthy (getField row "CASE_SHILLER") then
    (value / (getField row "CASE_SHILLER").getD 0) * 100
  else value

/-- The mutable `baseValues` object of `chartData`, keyed by asset. -/
abbrev BaseState := String → Option ℚ

/-- Processing of one asset inside one row of `chartData`: transform,
optional base capture and rescale (`if (baseValues[asset]) ...`), then
rounding.  Returns the updated base state and the emitted field value. -/
def processAsset (denom : Denom) (indexed : Bool) (latestPCE : Option ℚ) (i : ℕ)
    (row : Row) (st : BaseState) (asset : String) : BaseState × Option ℚ :=
  match getField row asset with
  | none => (st, none)
  | some v =>
    let t := transformValue denom latestPCE row v
    if indexed then
      let base := if i == 0 || (st asset).isNone then some t else st asset
      let st' := fun k => if k == asset then base else st k
      let v' := if truthy base then (t / base.getD 0) * 100 else t
      (st', some (round4 v'))
    else
      (st, some (round4 t))

/-- The `Object.keys(ASSETS).forEach(asset => ...)` loop over one row. -/
def processAssets (denom : Denom) (indexed : Bool) (latestPCE : Option ℚ) (i : ℕ)
    (row : Row) : BaseState → List String → BaseState × List (String × Option ℚ)
  | st, [] => (st, [])
  | st, a :: rest =>
    let pa := processAsset denom indexed latestPCE i row st a
    let pr := processAssets denom indexed latestPCE i row pa.1 rest
    (pr.1, (a, pa.2) :: pr.2)

/-- The `filteredData.map((row, i) => ...)` walk, with the closure-mutated
`baseValues` threaded through explicitly. -/
def chartGo (denom : Denom) (indexed : Bool) (latestPCE : Option ℚ) :
    ℕ → BaseState → List Row → List Row
  | _, _, [] => []
  | i, st, r :: rs =>
    let pr := processAssets denom indexed latestPCE i r st ASSETS
    { date := r.date, fields := pr.2 } :: chartGo denom indexed latestPCE (i + 1) pr.1 rs

/-- The read `filteredData[filteredData.length - 1]?.PCE`. -/
def latestPCEOf (window : List Row) : Option ℚ :=
  match window.getLast? with
  | some r => getField r "PCE"
  | none => none

/-- The `chartData` memo of `page.js`: denominator transform plus optional
base-100 indexing over the filtered window. -/
def chartData (filteredData : List Row) (denom : Denom) (indexed : Bool) : List Row :=
  if filteredData.isEmpty then []
  else chartGo denom indexed (latestPCEOf filteredData) 0 (fun _ => none) filteredData

/-! ## Request handlers -/

/-- The fetch results a request handler starts from: one optional series
per tracked instrument (a failed fetch is `none`). -/
structure FetchResults where
  spx : Option Series
  aapl : Option Series
  msft : Option Series
  goog : Option Series
  amzn : Option Series
  nvda : Option Series
  metaS : Option Series
  tsla : Option Series
  btc : Option Series
  gold : Option Series
  silver : Option Series
  ura : Option Series
  pce : Option Series
  caseShiller : Option Series
deriving Repr, DecidableEq

/-- The JSON response shape relevant to the claims.  route.js responses
never set `isFallback`, modelled as `none`. -/
structure ApiResponse where
  success : Bool
  isFallback : Option Bool
  data : List Row
deriving Repr, DecidableEq

/-- The `mag7Stocks` map built by both handlers. -/
def mag7StocksOf (f : FetchResults) : List (String × Option Series) :=
  [("AAPL", f.aapl), ("MSFT", f.msft), ("GOOG", f.goog), ("AMZN", f.amzn),
   ("NVDA", f.nvda), ("META", f.metaS), ("TSLA", f.tsla)]

/-- The line `const allDates = spxData?.map(d => d.date) || []`. -/
def allDatesOf (spx : Option Series) : List String :=
  match spx with
  | some s => s.map (fun p => p.date)
  | none => []

/-- The `datasets` map handed to `mergeData` by both handlers. -/
def datasetsOf (f : FetchResults) (mag7 : Option Series) : List (String × Option Series) :=
  [("SPX", f.spx), ("MAG7", mag7), ("BTC", f.btc), ("GOLD", f.gold),
   ("SILVER", f.silver), ("URANIUM", f.ura), ("PCE", f.pce),
   ("CASE_SHILLER", f.caseShiller)]

/-- The `GET` handler of `src/app/api/data/route.js` as a function of the
fetch results: no fallback path exists, the response is always a plain
success with the merged rows. -/
def routeGET (f : FetchResults) : ApiResponse :=
  let allDates := allDatesOf f.spx
  let mag7Data := mag7DataRoute (mag7StocksOf f) allDates
  { success := true, isFallback := none,
    data := mergeData (datasetsOf f mag7Data) allDates }

/-- Function `generateFallbackData` of `src/unnamed/part_002`: one synthetic row
per month of 2023 (`date.setMonth(date.getMonth() + 1)` twelve times). -/
def fallbackDates : List String :=
  ["2023-01-01", "2023-02-01", "2023-03-01", "2023-04-01", "2023-05-01",
   "2023-06-01", "2023-07-01", "2023-08-01", "2023-09-01", "2023-10-01",
   "2023-11-01", "2023-12-01"]

/-- The synthetic row for month index `i` (`0.5` is `1/2`, `0.2` is `1/5`
as exact rationals). -/
def fallbackRow (i : ℕ) (d : String) : Row :=
  { date := d,
    fields := [("SPX", some (4000 + i * 50)), ("MAG7", some (100 + i * 2)),
               ("BTC", some (30000 + i * 1000)), ("GOLD", some (2000 + i * 10)),
               ("SILVER", some (22 + i * (1/2))), ("URANIUM", some (20 + i * (1/2))),
               ("PCE", some (120 + i * (1/5))), ("CASE_SHILLER", some (300 + i))] }

/-- Function `generateFallbackData()` of `src/unnamed/part_002`. -/
def generateFallbackData : List Row :=
  fallbackDates.enum.map (fun idt => fallbackRow idt.1 idt.2)

/-- The eight series keys of a fallback row / merged row. -/
def configuredKeys : List String :=
  ["SPX", "MAG7", "BTC", "GOLD", "SILVER", "URANIUM", "PCE", "CASE_SHILLER"]

/-- The `GET` handler of `src/unnamed/part_002`: when the reference series
is missing the fallback response is returned (`success: true`,
`isFallback: true`), otherwise merge proceeds without the flag. -/
def part2GET (f : FetchResults) : ApiResponse :=
  match f.spx with
  | none =>
    { success := true, isFallback := some true, data := generateFallbackData }
  | some spx =>
    let allDates := spx.map (fun p => p.date)
    let mag7Data := mag7DataP2 (mag7StocksOf f) allDates
    { success := true, isFallback := none,
      data := mergeDataP2 (datasetsOf f mag7Data) allDates }

/-! ## Concrete inputs used by counterexamples and witnesses -/

/-- Seven components, `TSLA` unavailable, the other six sharing the single
date `2024-01-01`. -/
def c2Stocks : List (String × Option Series) :=
  [("AAPL", some [⟨"2024-01-01", 2⟩]), ("MSFT", some [⟨"2024-01-01", 4⟩]),
   ("GOOG", some [⟨"2024-01-01", 8⟩]), ("AMZN", some [⟨"2024-01-01", 5⟩]),
   ("NVDA", some [⟨"2024-01-01", 10⟩]), ("META", some [⟨"2024-01-01", 20⟩]),
   ("TSLA", none)]

/-- A request in which every fetch failed. -/
def fAllNone : FetchResults :=
  ⟨none, none, none, none, none, none, none, none, none, none, none, none, none, none⟩

/-- A request in which only the reference series succeeded. -/
def fW5 : FetchResults :=
  ⟨some [⟨"2024-01-31", 5⟩], none, none, none, none, none, none, none, none,
   none, none, none, none, none⟩

/-- Seven components with one zero value at their only (hence base) date. -/
def czStocks : List (String × Series) :=
  [("AAPL", [⟨"2024-01-01", 0⟩]), ("MSFT", [⟨"2024-01-01", 1⟩]),
   ("GOOG", [⟨"2024-01-01", 1⟩]), ("AMZN", [⟨"2024-01-01", 1⟩]),
   ("NVDA", [⟨"2024-01-01", 1⟩]), ("META", [⟨"2024-01-01", 1⟩]),
   ("TSLA", [⟨"2024-01-01", 1⟩])]

/-- Two components with nonzero values, complete from the second date on. -/
def c6Stocks : List (String × Series) :=
  [("AAPL", [⟨"2024-02-01", 2⟩]), ("MSFT", [⟨"2024-01-01", 3⟩, ⟨"2024-02-01", 4⟩])]

/-- The `values` object `calculateMag7` builds from `czStocks` on its
single date. -/
def czVals : List (String × ℚ) :=
  [("AAPL", 0), ("MSFT", 1), ("GOOG", 1), ("AMZN", 1), ("NVDA", 1), ("META", 1), ("TSLA", 1)]

/-- A window whose single row has asset value `0` (a zero base). -/
def cw7x : List Row := [⟨"2024-01-01", [("SPX", some 0)]⟩]

/-- A window whose single row has a nonzero asset value. -/
def cw7w : List Row := [⟨"2024-01-01", [("SPX", some 50)]⟩]

/-- A row with a present asset value but a missing GOLD divisor. -/
def cw4 : List Row := [⟨"2024-01-01", [("SPX", some 5), ("GOLD", none)]⟩]

/-- The PCE scenario window of the spec:
`[(v=100, PCE=120), (v=110, PCE=121), (v=121, PCE=122)]`. -/
def cw8 : List Row :=
  [⟨"2024-01-01", [("SPX", some 100), ("PCE", some 120)]⟩,
   ⟨"2024-02-01", [("SPX", some 110), ("PCE", some 121)]⟩,
   ⟨"2024-03-01", [("SPX", some 121), ("PCE", some 122)]⟩]

/-- A reference series whose only point in the canonical month has value 0. -/
def ds9 : List (String × Option Series) := [("SPX", some [⟨"2024-01-31", 0⟩])]

/-- A window whose single row has asset value `0` (zero captured base). -/
def cw10 : List Row := [⟨"2024-01-01", [("SPX", some 0)]⟩]

/-! ## Helper lemmas: calendar merge -/

theorem lookup_map_pair {α β : Type} (f : α → β) (k : String) :
    ∀ (ds : List (String × α)),
      (ds.map (fun p => (p.1, f p.2))).lookup k = (ds.lookup k).map f
  | [] => rfl
  | (k', v) :: rest => by
    simp only [List.map, List.lookup]
    cases h : k == k'
    · simpa using lookup_map_pair f k rest
    · rfl

theorem getField_mkRow_some {ds : List (String × Option Series)} {k : String}
    {o : Option Series} (h : ds.lookup k = some o) (d : String) :
    getField (mkRow ds d) k = fieldFor o d := by
  unfold getField mkRow
  simp only [lookup_map_pair (fun o => fieldFor o d) k ds, h, Option.map_some']

theorem spxTruthy_eq_true {r : Row} (h : spxTruthy r = true) :
    ∃ v, getField r "SPX" = some v ∧ v ≠ 0 := by
  cases hg : getField r "SPX" with
  | none => simp [spxTruthy, hg] at h
  | some v =>
    simp only [spxTruthy, hg] at h
    by_cases hv : v = 0
    · rw [if_pos hv] at h; cases h
    · exact ⟨v, rfl, hv⟩

theorem mem_mergeData {ds : List (String × Option Series)} {dates : List String} {r : Row}
    (h : r ∈ mergeData ds dates) :
    (∃ d ∈ dates, r = mkRow ds d) ∧ spxTruthy r = true := by
  unfold mergeData at h
  rw [List.mem_filter] at h
  obtain ⟨hm, ht⟩ := h
  rw [List.mem_map] at hm
  obtain ⟨d, hd, hr⟩ := hm
  exact ⟨⟨d, hd, hr.symm⟩, ht⟩

/-! ## C1 -/

/-- C1 (amended): in the `route.js` variant, every row emitted by
`mergeData` has a non-null (indeed nonzero) SPX field, for every input
mapping and canonical date list. -/
theorem c1_route_rows_have_spx (ds : List (String × Option Series)) (dates : List String)
    (r : Row) (h : r ∈ mergeData ds dates) :
    ∃ v, getField r "SPX" = some v ∧ v ≠ 0 :=
  spxTruthy_eq_true (mem_mergeData h).2

/-- C1 witness: the theorem applied to a one-series, one-date input. -/
theorem c1_witness :
    ∃ v, getField { date := "2024-01-15", fields := [("SPX", some 5)] } "SPX" = some v ∧ v ≠ 0 :=
  c1_route_rows_have_spx [("SPX", some [⟨"2024-01-31", 5⟩])] ["2024-01-15"] _ (by decide)

/-- C1 counterexample: the `part_002` variant of `mergeData` pushes a row
for every truthy date string with no SPX gate, so a row whose SPX field is
null is emitted. -/
theorem c1_counterexample :
    mergeDataP2 [("SPX", some ([] : Series))] ["2024-01-15"] =
      [{ date := "2024-01-15", fields := [("SPX", none)] }] ∧
    getField { date := "2024-01-15", fields := [("SPX", none)] } "SPX" = none :=
  ⟨by decide, by decide⟩

/-! ## C9 -/

/-- C9: in both `mergeData` variants a point whose value is exactly 0 is
stored as null (the `point?.value || null` conflation), and in the
`route.js` variant a zero-valued reference-series point suppresses the
row for that canonical date entirely. -/
theorem c9_zero_value_conflated :
    (∀ (ds : List (String × Option Series)) (d key : String) (s : Series) (pt : TimePoint),
      ds.lookup key = some (some s) → s.find? (monthMatch d) = some pt → pt.value = 0 →
      getField (mkRow ds d) key = none) ∧
    (∀ (ds : List (String × Option Series)) (dates : List String) (d : String)
      (s : Series) (pt : TimePoint),
      ds.lookup "SPX" = some (some s) → s.find? (monthMatch d) = some pt → pt.value = 0 →
      ∀ r ∈ mergeData ds dates, r.date ≠ d) := by
  have hfield : ∀ (ds : List (String × Option Series)) (d key : String) (s : Series)
      (pt : TimePoint), ds.lookup key = some (some s) → s.find? (monthMatch d) = some pt →
      pt.value = 0 → getField (mkRow ds d) key = none := by
    intro ds d key s pt hl hf hv
    rw [getField_mkRow_some hl]
    simp [fieldFor, hf, hv]
  refine ⟨hfield, ?_⟩
  intro ds dates d s pt hl hf hv r hr hd
  obtain ⟨⟨d', _, hrw⟩, ht⟩ := mem_mergeData hr
  subst hrw
  have hdd : d' = d := hd
  subst hdd
  obtain ⟨v, hg, _⟩ := spxTruthy_eq_true ht
  rw [hfield ds d' "SPX" s pt hl hf hv] at hg
  cases hg

/-- C9 witness: a reference series whose January point has value 0 yields
a null SPX field in the January row. -/
theorem c9_witness : getField (mkRow ds9 "2024-01-10") "SPX" = none :=
  c9_zero_value_conflated.1 ds9 "2024-01-10" "SPX" [⟨"2024-01-31", 0⟩] ⟨"2024-01-31", 0⟩
    (by decide) (by decide) rfl

/-! ## C3 -/

/-- C3 counterexample: the `route.js` handler has no fallback path at all;
with the reference series unavailable its response carries no
`isFallback` flag and its data is empty rather than the 12 synthetic
rows. -/
theorem c3_counterexample :
    (routeGET fAllNone).isFallback = none ∧ (routeGET fAllNone).data = [] :=
  ⟨by decide, by decide⟩

/-- C3 (amended): in the `part_002` handler, whenever the reference-series
fetch yields unavailable the response is the fallback response:
`success` true, `isFallback` true, and the data is the fixed 12-row
synthetic sequence with every configured field non-null. -/
theorem c3_part2_fallback (f : FetchResults) (h : f.spx = none) :
    part2GET f = ApiResponse.mk true (some true) generateFallbackData ∧
    generateFallbackData.length = 12 ∧
    ∀ r ∈ generateFallbackData, ∀ k ∈ configuredKeys, (getField r k).isSome = true := by
  refine ⟨?_, by decide, by decide⟩
  simp [part2GET, h]

/-- C3 witness: the theorem applied to the all-fetches-failed request. -/
theorem c3_witness :
    part2GET fAllNone = ApiResponse.mk true (some true) generateFallbackData ∧
    generateFallbackData.length = 12 ∧
    ∀ r ∈ generateFallbackData, ∀ k ∈ configuredKeys, (getField r k).isSome = true :=
  c3_part2_fallback fAllNone rfl

/-! ## C5 -/

theorem validStocks_length : ∀ (l : List (String × Option Series)),
    (validStocks l).length = availCount l
  | [] => rfl
  | (n, o) :: rest => by
    have ih := validStocks_length rest
    cases o <;> simp_all [validStocks, availCount, List.filterMap_cons, List.filter_cons]

/-- C5: in both handler variants the composite is produced (not the null
sentinel) exactly when at least 5 of the 7 components are available, and
when 4 or fewer are available the merge still runs with a null MAG7
column in every emitted row. -/
theorem c5_quorum (f : FetchResults) :
    ((mag7DataRoute (mag7StocksOf f) (allDatesOf f.spx)).isSome ↔
      5 ≤ availCount (mag7StocksOf f)) ∧
    ((mag7DataP2 (mag7StocksOf f) (allDatesOf f.spx)).isSome ↔
      5 ≤ availCount (mag7StocksOf f)) ∧
    (availCount (mag7StocksOf f) ≤ 4 →
      ∀ r ∈ (routeGET f).data, getField r "MAG7" = none) := by
  refine ⟨?_, ?_, ?_⟩
  · unfold mag7DataRoute
    rw [validStocks_length]
    by_cases h : 5 ≤ availCount (mag7StocksOf f) <;> simp [h]
  · unfold mag7DataP2
    by_cases h : 5 ≤ availCount (mag7StocksOf f) <;> simp [h]
  · intro h4 r hr
    have hnone : mag7DataRoute (mag7StocksOf f) (allDatesOf f.spx) = none := by
      unfold mag7DataRoute
      rw [validStocks_length]
      have h5 : ¬ 5 ≤ availCount (mag7StocksOf f) := by omega
      simp [h5]
    simp only [routeGET, hnone] at hr
    obtain ⟨⟨d, _, hrw⟩, _⟩ := mem_mergeData hr
    subst hrw
    have hl : (datasetsOf f none).lookup "MAG7" = some none := rfl
    rw [getField_mkRow_some hl]
    rfl

/-- C5 witness: with only the reference series available (0 of 7
components), the emitted row carries a null MAG7 field. -/
theorem c5_witness : getField ((routeGET fW5).data.getD 0 default) "MAG7" = none :=
  (c5_quorum fW5).2.2 (by decide) _ (by decide)

/-! ## Helper lemmas: composite calculation -/

theorem mag7Go_cons_some {rv : String → Option (List (String × ℚ))}
    {base : Option (List (String × ℚ))} {d : String} {ds : List String}
    {vs : List (String × ℚ)} (h : rv d = some vs) :
    mag7Go rv base (d :: ds) =
      { date := d,
        value := ((vs.map (fun nv => nv.2 / lookupD (base.getD vs) nv.1)).sum /
          (vs.length : ℚ)) * 100 } :: mag7Go rv (some (base.getD vs)) ds := by
  simp only [mag7Go, h]

theorem mag7Go_cons_none {rv : String → Option (List (String × ℚ))}
    {base : Option (List (String × ℚ))} {d : String} {ds : List String}
    (h : rv d = none) : mag7Go rv base (d :: ds) = mag7Go rv base ds := by
  simp only [mag7Go, h]

theorem rowValues_isSome_of_full : ∀ (stocks : List (String × Series)) (d : String),
    (∀ ns ∈ stocks, (ns.2.find? (fun p => p.date == d)).isSome = true) →
    (rowValues stocks d).isSome = true
  | [], _, _ => rfl
  | (n, s) :: rest, d, h => by
    have h1 := h (n, s) (List.mem_cons_self _ _)
    have h2 := rowValues_isSome_of_full rest d (fun ns hns => h ns (List.mem_cons_of_mem _ hns))
    obtain ⟨p, hp⟩ := Option.isSome_iff_exists.mp h1
    obtain ⟨vs, hvs⟩ := Option.isSome_iff_exists.mp h2
    simp only [rowValues, hp, hvs, Option.isSome_some]

theorem rowValues_none_of_not_complete : ∀ (stocks : List (String × Series)) (d : String),
    isComplete stocks d = false → rowValues stocks d = none
  | [], d, h => by simp [isComplete] at h
  | (n, s) :: rest, d, h => by
    rw [isComplete, List.all_cons, Bool.and_eq_false_iff] at h
    cases h with
    | inl h1 =>
      have : s.find? (fun p => p.date == d) = none := by
        cases hf : s.find? (fun p => p.date == d)
        · rfl
        · rw [hf] at h1; cases h1
      simp only [rowValues, this]
    | inr h2 =>
      have := rowValues_none_of_not_complete rest d h2
      simp only [rowValues, this]
      cases s.find? (fun p => p.date == d) <;> rfl

theorem rowValues_keys : ∀ (stocks : List (String × Series)) (d : String)
    (vs : List (String × ℚ)), rowValues stocks d = some vs →
    vs.map Prod.fst = stocks.map Prod.fst
  | [], _, vs, h => by
    simp only [rowValues] at h
    injection h with h
    subst h
    rfl
  | (n, s) :: rest, d, vs, h => by
    simp only [rowValues] at h
    cases hf : s.find? (fun p => p.date == d) <;> rw [hf] at h
    · cases h
    · cases hr : rowValues rest d <;> rw [hr] at h
      · cases h
      · injection h with h
        subst h
        simp only [List.map_cons]
        rw [rowValues_keys rest d _ hr]

theorem rowValues_value_nonzero : ∀ (stocks : List (String × Series)) (d : String),
    (∀ ns ∈ stocks,
      ((ns.2.find? (fun p => p.date == d)).all (fun p => decide (p.value ≠ 0))) = true) →
    ∀ (vs : List (String × ℚ)), rowValues stocks d = some vs → ∀ nv ∈ vs, nv.2 ≠ 0
  | [], _, _, vs, h, nv, hnv => by
    simp only [rowValues] at h
    injection h with h
    subst h
    cases hnv
  | (n, s) :: rest, d, hnz, vs, h, nv, hnv => by
    simp only [rowValues] at h
    cases hf : s.find? (fun p => p.date == d) <;> rw [hf] at h
    · cases h
    · cases hr : rowValues rest d <;> rw [hr] at h
      · cases h
      · injection h with h
        subst h
        rcases List.mem_cons.mp hnv with heq | hmem
        · subst heq
          have := hnz (n, s) (List.mem_cons_self _ _)
          rw [hf] at this
          simpa using this
        · exact rowValues_value_nonzero rest d
            (fun ns hns => hnz ns (List.mem_cons_of_mem _ hns)) _ hr nv hmem

theorem lookup_eq_of_mem_nodup : ∀ (vs : List (String × ℚ)), (vs.map Prod.fst).Nodup →
    ∀ {n : String} {v : ℚ}, (n, v) ∈ vs → vs.lookup n = some v
  | [], _, _, _, h => absurd h (List.not_mem_nil _)
  | (m, w) :: rest, hnd, n, v, h => by
    rw [List.map_cons, List.nodup_cons] at hnd
    rcases List.mem_cons.mp h with heq | hmem
    · rw [Prod.mk.injEq] at heq
      obtain ⟨h1, h2⟩ := heq
      subst h1; subst h2
      simp [List.lookup]
    · have hne : n ≠ m := by
        intro he
        subst he
        have hmm := List.mem_map_of_mem Prod.fst hmem
        exact hnd.1 hmm
      have hbeq : (n == m) = false := beq_eq_false_iff_ne.mpr hne
      simp only [List.lookup, hbeq]
      exact lookup_eq_of_mem_nodup rest hnd.2 hmem

theorem sum_div_eq_length : ∀ (vs : List (String × ℚ)) (base : List (String × ℚ)),
    (∀ nv ∈ vs, lookupD base nv.1 = nv.2 ∧ nv.2 ≠ 0) →
    (vs.map (fun nv => nv.2 / lookupD base nv.1)).sum = (vs.length : ℚ)
  | [], _, _ => by simp
  | nv :: rest, base, h => by
    simp only [List.map_cons, List.sum_cons, List.length_cons]
    rw [(h nv (List.mem_cons_self _ _)).1, div_self (h nv (List.mem_cons_self _ _)).2,
      sum_div_eq_length rest base (fun x hx => h x (List.mem_cons_of_mem _ hx))]
    push_cast
    ring

/-! ## C2 -/

theorem filter_isSome_add_isNone : ∀ (l : List (String × Option Series)),
    availCount l + (l.filter (fun nv => nv.2.isNone)).length = l.length
  | [] => rfl
  | (n, o) :: rest => by
    have ih := filter_isSome_add_isNone rest
    cases o <;> simp_all [availCount, List.filter_cons] <;> omega

theorem mem_validStocks : ∀ {l : List (String × Option Series)} {n : String} {s : Series},
    (n, s) ∈ validStocks l → (n, some s) ∈ l
  | [], _, _, h => absurd h (List.not_mem_nil _)
  | (m, o) :: rest, n, s, h => by
    cases o with
    | none =>
      have : (n, s) ∈ validStocks rest := h
      exact List.mem_cons_of_mem _ (mem_validStocks this)
    | some t =>
      have hh : (n, s) ∈ (m, t) :: validStocks rest := h
      rcases List.mem_cons.mp hh with heq | hmem
      · rw [Prod.mk.injEq] at heq
        obtain ⟨h1, h2⟩ := heq
        subst h1; subst h2
        exact List.mem_cons_self _ _
      · exact List.mem_cons_of_mem _ (mem_validStocks hmem)

/-- C2 (amended): in the `route.js` flow, which filters null datasets out
before calling `calculateMag7`, a component mapping with exactly one
unavailable component and six fully-populated ones yields the composite
computed from those six, and it is non-empty as soon as one canonical
date exists. -/
theorem c2_route_composite (stocks : List (String × Option Series)) (dates : List String)
    (h7 : stocks.length = 7)
    (h1 : (stocks.filter (fun nv => nv.2.isNone)).length = 1)
    (hfull : ∀ ns ∈ stocks, ∀ d ∈ dates,
      ns.2.all (fun s => (s.find? (fun p => p.date == d)).isSome) = true)
    (hd : dates ≠ []) :
    (validStocks stocks).length = 6 ∧
    mag7DataRoute stocks dates = some (calculateMag7 (validStocks stocks) dates) ∧
    calculateMag7 (validStocks stocks) dates ≠ [] := by
  have hlen : (validStocks stocks).length = 6 := by
    have hv := validStocks_length stocks
    have hs := filter_isSome_add_isNone stocks
    omega
  refine ⟨hlen, ?_, ?_⟩
  · unfold mag7DataRoute
    rw [if_pos (by omega)]
  · obtain ⟨d, ds, rfl⟩ := List.exists_cons_of_ne_nil hd
    have hrv : (rowValues (validStocks stocks) d).isSome = true := by
      apply rowValues_isSome_of_full
      intro ns hns
      obtain ⟨n, s⟩ := ns
      have hmem := mem_validStocks hns
      have := hfull (n, some s) hmem d (List.mem_cons_self _ _)
      simpa [Option.all] using this
    obtain ⟨vs, hvs⟩ := Option.isSome_iff_exists.mp hrv
    unfold calculateMag7
    rw [mag7Go_cons_some hvs]
    exact List.cons_ne_nil _ _

/-- C2 witness: the theorem applied to `c2Stocks` (TSLA unavailable, six
components sharing one date). -/
theorem c2_witness :
    (validStocks c2Stocks).length = 6 ∧
    mag7DataRoute c2Stocks ["2024-01-01"] =
      some (calculateMag7 (validStocks c2Stocks) ["2024-01-01"]) ∧
    calculateMag7 (validStocks c2Stocks) ["2024-01-01"] ≠ [] :=
  c2_route_composite c2Stocks ["2024-01-01"] (by decide) (by decide) (by decide) (by decide)

/-- C2 counterexample: the `part_002` flow passes the null dataset into
`calculateMag7`, where `if (!data) { allPresent = false; break; }` makes
every date incomplete: the quorum passes (6 of 7) but the composite comes
back empty instead of being computed from the six available components. -/
theorem c2_counterexample : mag7DataP2 c2Stocks ["2024-01-01"] = some [] := by decide

/-! ## C6 -/

theorem c6_aux (stocks : List (String × Series)) (d0 : String)
    (hne : stocks ≠ [])
    (hnd : (stocks.map Prod.fst).Nodup)
    (hnz : ∀ ns ∈ stocks,
      ((ns.2.find? (fun p => p.date == d0)).all (fun p => decide (p.value ≠ 0))) = true) :
    ∀ (dates : List String), dates.find? (isComplete stocks) = some d0 →
    ∃ tp, (calculateMag7 stocks dates).head? = some tp ∧ tp.date = d0 ∧ tp.value = 100
  | [], h => by cases h
  | d :: ds, h => by
    by_cases hc : isComplete stocks d = true
    · rw [List.find?_cons_of_pos _ hc] at h
      injection h with h
      subst h
      have hcall : ∀ ns ∈ stocks, (ns.2.find? (fun p => p.date == d)).isSome = true := by
        intro ns hns
        rw [isComplete, List.all_eq_true] at hc
        exact hc ns hns
      have hrv := rowValues_isSome_of_full stocks d hcall
      obtain ⟨vs, hvs⟩ := Option.isSome_iff_exists.mp hrv
      have hkeys := rowValues_keys stocks d vs hvs
      have hnodup : (vs.map Prod.fst).Nodup := by rw [hkeys]; exact hnd
      have hvals := rowValues_value_nonzero stocks d hnz vs hvs
      have hlen0 : vs ≠ [] := by
        intro hcon
        subst hcon
        have : stocks.map Prod.fst = [] := by rw [← hkeys]; rfl
        exact hne (List.map_eq_nil_iff.mp this)
      have hprops : ∀ nv ∈ vs, lookupD vs nv.1 = nv.2 ∧ nv.2 ≠ 0 := by
        intro nv hnv
        refine ⟨?_, hvals nv hnv⟩
        unfold lookupD
        rw [lookup_eq_of_mem_nodup vs hnodup hnv]
      have hq : (vs.length : ℚ) ≠ 0 := by
        have : vs.length ≠ 0 := fun hz => hlen0 (List.length_eq_zero.mp hz)
        exact_mod_cast this
      unfold calculateMag7
      rw [mag7Go_cons_some hvs]
      refine ⟨_, rfl, rfl, ?_⟩
      show ((vs.map (fun nv => nv.2 / lookupD ((none : Option (List (String × ℚ))).getD vs)
        nv.1)).sum / (vs.length : ℚ)) * 100 = 100
      rw [Option.getD_none, sum_div_eq_length vs vs hprops, div_self hq, one_mul]
    · rw [List.find?_cons_of_neg _ hc] at h
      have hcf : isComplete stocks d = false := by
        cases hb : isComplete stocks d
        · rfl
        · exact absurd hb hc
      have hnone := rowValues_none_of_not_complete stocks d hcf
      unfold calculateMag7
      rw [mag7Go_cons_none hnone]
      exact c6_aux stocks d0 hne hnd hnz ds h

/-- C6 (amended): for every nonempty, distinctly-named component mapping
whose components all have nonzero values on the base date (the first
canonical date on which every component has an exact-date point), the
composite value at the base date is exactly 100. -/
theorem c6_composite_base_100 (stocks : List (String × Series)) (dates : List String)
    (d0 : String) (hne : stocks ≠ []) (hnd : (stocks.map Prod.fst).Nodup)
    (hfind : dates.find? (isComplete stocks) = some d0)
    (hnz : ∀ ns ∈ stocks,
      ((ns.2.find? (fun p => p.date == d0)).all (fun p => decide (p.value ≠ 0))) = true) :
    ∃ tp, (calculateMag7 stocks dates).head? = some tp ∧ tp.date = d0 ∧ tp.value = 100 :=
  c6_aux stocks d0 hne hnd hnz dates hfind

/-- C6 witness: two components, complete from the second date on, nonzero
base values; the first composite point is (base date, 100). -/
theorem c6_witness :
    ∃ tp, (calculateMag7 c6Stocks ["2024-01-01", "2024-02-01"]).head? = some tp ∧
      tp.date = "2024-02-01" ∧ tp.value = 100 :=
  c6_composite_base_100 c6Stocks ["2024-01-01", "2024-02-01"] "2024-02-01"
    (by decide) (by decide) (by decide) (by decide)

/-- C6 counterexample: with a component whose value at the base date is 0
the claim as stated fails: the base date exists (the single date is
complete) but the composite value there is not 100.  (In the JS source
`0 / 0` is `NaN`, so the emitted value is `NaN`, likewise different from
100; the rational model yields `600 / 7`.) -/
theorem c6_counterexample :
    ["2024-01-01"].find? (isComplete czStocks) = some "2024-01-01" ∧
    (calculateMag7 czStocks ["2024-01-01"]).head?.map TimePoint.value ≠ some 100 := by
  refine ⟨by decide, ?_⟩
  have hrv : rowValues czStocks "2024-01-01" = some czVals := by decide
  unfold calculateMag7
  rw [mag7Go_cons_some hrv]
  simp only [List.head?_cons, Option.map_some', ne_eq, Option.some.injEq]
  rw [Option.getD_none]
  have hmap : czVals.map (fun nv => nv.2 / lookupD czVals nv.1) =
      [0 / lookupD czVals "AAPL", 1 / lookupD czVals "MSFT", 1 / lookupD czVals "GOOG",
       1 / lookupD czVals "AMZN", 1 / lookupD czVals "NVDA", 1 / lookupD czVals "META",
       1 / lookupD czVals "TSLA"] := rfl
  rw [hmap, show lookupD czVals "AAPL" = 0 from by decide,
    show lookupD czVals "MSFT" = 1 from by decide,
    show lookupD czVals "GOOG" = 1 from by decide,
    show lookupD czVals "AMZN" = 1 from by decide,
    show lookupD czVals "NVDA" = 1 from by decide,
    show lookupD czVals "META" = 1 from by decide,
    show lookupD czVals "TSLA" = 1 from by decide]
  norm_num [czVals, List.sum_cons, List.sum_nil]

/-! ## Helper lemmas: chart transformer, unindexed path -/

theorem round4_eq (q : ℚ) : round4 q = ((⌊q * 10000 + 1/2⌋ : ℤ) : ℚ) / 10000 := rfl

theorem processAsset_false (denom : Denom) (lp : Option ℚ) (i : ℕ) (row : Row)
    (st : BaseState) (a : String) :
    processAsset denom false lp i row st a =
      (st, (getField row a).map (fun v => round4 (transformValue denom lp row v))) := by
  cases h : getField row a <;> simp [processAsset, h]

theorem processAssets_false (denom : Denom) (lp : Option ℚ) (i : ℕ) (row : Row) :
    ∀ (assets : List String) (st : BaseState),
    processAssets denom false lp i row st assets =
      (st, assets.map (fun a => (a, (getField row a).map
        (fun v => round4 (transformValue denom lp row v)))))
  | [], st => rfl
  | a :: rest, st => by
    simp only [processAssets, processAsset_false, List.map_cons,
      processAssets_false denom lp i row rest st]

theorem chartGo_false (denom : Denom) (lp : Option ℚ) :
    ∀ (rows : List Row) (i : ℕ) (st : BaseState),
    chartGo denom false lp i st rows = rows.map (fun r =>
      { date := r.date, fields := ASSETS.map (fun a => (a, (getField r a).map
        (fun v => round4 (transformValue denom lp r v)))) })
  | [], _, _ => rfl
  | r :: rs, i, st => by
    simp only [chartGo, processAssets_false, List.map_cons,
      chartGo_false denom lp rs (i + 1) st]

theorem lookup_map_self {β : Type} (g : String → β) :
    ∀ (l : List String) (a : String), a ∈ l →
      (l.map (fun x => (x, g x))).lookup a = some (g a)
  | [], _, h => absurd h (List.not_mem_nil _)
  | b :: rest, a, h => by
    by_cases hab : a = b
    · subst hab
      simp [List.lookup]
    · have hbeq : (a == b) = false := beq_eq_false_iff_ne.mpr hab
      simp only [List.map_cons, List.lookup, hbeq]
      exact lookup_map_self g rest a (List.mem_of_ne_of_mem hab h)

theorem getField_assets_row {g : String → Option ℚ} {d : String} {a : String}
    (ha : a ∈ ASSETS) :
    getField { date := d, fields := ASSETS.map (fun x => (x, g x)) } a = g a := by
  unfold getField
  rw [lookup_map_self g ASSETS a ha]

theorem chartData_of_ne_nil (window : List Row) (denom : Denom) (indexed : Bool)
    (h : window ≠ []) :
    chartData window denom indexed =
      chartGo denom indexed (latestPCEOf window) 0 (fun _ => none) window := by
  cases window with
  | nil => exact absurd rfl h
  | cons r rs => rfl

/-! ## C4 -/

/-- C4 (amended): when a row's GOLD divisor is null, the GOLD-denominated
chart value of a present asset is NOT null: the asset value passes
through the transform unchanged (only rounded); no division by the
missing divisor occurs, but no nulling-out either. -/
theorem c4_gold_null_passthrough (window : List Row) (i : ℕ) (r : Row) (asset : String)
    (v : ℚ) (ha : asset ∈ ASSETS) (hw : window.get? i = some r)
    (hgold : getField r "GOLD" = none) (hv : getField r asset = some v) :
    ∃ r', (chartData window Denom.GOLD false).get? i = some r' ∧
      getField r' asset = some (round4 v) := by
  have hne : window ≠ [] := by
    intro hcon
    subst hcon
    simp at hw
  rw [chartData_of_ne_nil window Denom.GOLD false hne, chartGo_false, List.get?_map, hw,
    Option.map_some']
  refine ⟨_, rfl, ?_⟩
  rw [getField_assets_row ha, hv, Option.map_some']
  have ht : transformValue Denom.GOLD (latestPCEOf window) r v = v := by
    unfold transformValue
    rw [show (Denom.GOLD == Denom.PCE) = false from by decide,
      show (Denom.GOLD == Denom.HOUSES) = false from by decide, hgold]
    simp [truthy]
  rw [ht]

/-- C4 witness: the theorem applied to a GOLD-less row with SPX 5. -/
theorem c4_witness :
    ∃ r', (chartData cw4 Denom.GOLD false).get? 0 = some r' ∧
      getField r' "SPX" = some (round4 5) :=
  c4_gold_null_passthrough cw4 0 ⟨"2024-01-01", [("SPX", some 5), ("GOLD", none)]⟩ "SPX" 5
    (by decide) (by decide) (by decide) (by decide)

/-- C4 counterexample: on the row with GOLD null and SPX 5, the
GOLD-denominated chart value of SPX is `some 5` - passed through
untransformed - and not null as the claim states. -/
theorem c4_counterexample :
    getField ((chartData cw4 Denom.GOLD false).getD 0 default) "SPX" = some 5 ∧
    getField (cw4.getD 0 default) "GOLD" = none := by
  refine ⟨?_, by decide⟩
  rw [chartData_of_ne_nil cw4 Denom.GOLD false (by decide), chartGo_false]
  rw [show (cw4.map (fun r =>
      ({ date := r.date, fields := ASSETS.map (fun a => (a, (getField r a).map
        (fun v => round4 (transformValue Denom.GOLD (latestPCEOf cw4) r v)))) } : Row))).getD 0
        default =
    { date := "2024-01-01", fields := ASSETS.map (fun a => (a,
      (getField (⟨"2024-01-01", [("SPX", some 5), ("GOLD", none)]⟩ : Row) a).map
        (fun v => round4 (transformValue Denom.GOLD (latestPCEOf cw4)
          (⟨"2024-01-01", [("SPX", some 5), ("GOLD", none)]⟩ : Row) v)))) } from rfl]
  rw [getField_assets_row (by decide)]
  rw [show getField (⟨"2024-01-01", [("SPX", some 5), ("GOLD", none)]⟩ : Row) "SPX" = some 5
    from by decide, Option.map_some']
  rw [show transformValue Denom.GOLD (latestPCEOf cw4)
    (⟨"2024-01-01", [("SPX", some 5), ("GOLD", none)]⟩ : Row) 5 = 5 from by decide]
  norm_num [round4_eq]

/-! ## C8 -/

theorem transformValue_PCE (v p l : ℚ) {r : Row} (hp : getField r "PCE" = some p)
    (hp0 : p ≠ 0) (hl0 : l ≠ 0) :
    transformValue Denom.PCE (some l) r v = v * (l / p) := by
  unfold transformValue
  rw [hp]
  simp [truthy, hp0, hl0]

/-- C8: under the PCE denominator without indexing, each present value
with a truthy PCE divisor becomes `value * (latestPCE / row.PCE)` with
`latestPCE` read from the last row of the filtered window; on the spec's
three-row scenario the SPX column is `[101.6667, 110.9091, 121]`. -/
theorem c8_pce_transform :
    (∀ (window : List Row) (i : ℕ) (r : Row) (asset : String) (v p lp : ℚ),
      asset ∈ ASSETS → window.get? i = some r → getField r asset = some v →
      getField r "PCE" = some p → p ≠ 0 → latestPCEOf window = some lp → lp ≠ 0 →
      ∃ r', (chartData window Denom.PCE false).get? i = some r' ∧
        getField r' asset = some (round4 (v * (lp / p)))) ∧
    (chartData cw8 Denom.PCE false).map (fun r => getField r "SPX") =
      [some (1016667/10000), some (1109091/10000), some 121] := by
  constructor
  · intro window i r asset v p lp ha hw hv hp hp0 hlp hlp0
    have hne : window ≠ [] := by
      intro hcon
      subst hcon
      simp at hw
    rw [chartData_of_ne_nil window Denom.PCE false hne, chartGo_false, List.get?_map, hw,
      Option.map_some']
    refine ⟨_, rfl, ?_⟩
    rw [getField_assets_row ha, hv, Option.map_some']
    rw [hlp, transformValue_PCE v p lp hp hp0 hlp0]
  · rw [chartData_of_ne_nil cw8 Denom.PCE false (by decide), chartGo_false,
      show latestPCEOf cw8 = some 122 from by decide]
    simp only [cw8, List.map_cons, List.map_nil]
    rw [getField_assets_row (show "SPX" ∈ ASSETS from by decide),
      getField_assets_row (show "SPX" ∈ ASSETS from by decide),
      getField_assets_row (show "SPX" ∈ ASSETS from by decide)]
    rw [show getField (⟨"2024-01-01", [("SPX", some 100), ("PCE", some 120)]⟩ : Row) "SPX" =
        some 100 from by decide,
      show getField (⟨"2024-02-01", [("SPX", some 110), ("PCE", some 121)]⟩ : Row) "SPX" =
        some 110 from by decide,
      show getField (⟨"2024-03-01", [("SPX", some 121), ("PCE", some 122)]⟩ : Row) "SPX" =
        some 121 from by decide]
    simp only [Option.map_some']
    rw [transformValue_PCE (r := ⟨"2024-01-01", [("SPX", some 100), ("PCE", some 120)]⟩)
        100 120 122 (by decide) (by norm_num) (by norm_num),
      transformValue_PCE (r := ⟨"2024-02-01", [("SPX", some 110), ("PCE", some 121)]⟩)
        110 121 122 (by decide) (by norm_num) (by norm_num),
      transformValue_PCE (r := ⟨"2024-03-01", [("SPX", some 121), ("PCE", some 122)]⟩)
        121 122 122 (by decide) (by norm_num) (by norm_num)]
    norm_num [round4_eq]

/-- C8 witness: the general part of the theorem applied to the first
scenario row. -/
theorem c8_witness :
    ∃ r', (chartData cw8 Denom.PCE false).get? 0 = some r' ∧
      getField r' "SPX" = some (round4 (100 * (122 / 120))) :=
  c8_pce_transform.1 cw8 0 ⟨"2024-01-01", [("SPX", some 100), ("PCE", some 120)]⟩ "SPX"
    100 120 122 (by decide) (by decide) (by decide) (by decide) (by decide) (by decide)
    (by decide)

/-! ## Helper lemmas: chart transformer, indexed path -/

theorem processAsset_field_none {denom : Denom} {idx : Bool} {lp : Option ℚ} {i : ℕ}
    {row : Row} {st : BaseState} {a : String} (h : getField row a = none) :
    processAsset denom idx lp i row st a = (st, none) := by
  simp [processAsset, h]

theorem processAsset_fst_other {denom : Denom} {idx : Bool} {lp : Option ℚ} {i : ℕ}
    {row : Row} {st : BaseState} {a b : String} (hba : b ≠ a) :
    (processAsset denom idx lp i row st b).1 a = st a := by
  cases hf : getField row b with
  | none => simp [processAsset, hf]
  | some v =>
    cases idx <;> simp [processAsset, hf, Ne.symm hba]

theorem processAsset_snd_congr {denom : Denom} {lp : Option ℚ} {i : ℕ} {row : Row}
    {st st' : BaseState} {a : String} (h : st a = st' a) :
    (processAsset denom true lp i row st a).2 = (processAsset denom true lp i row st' a).2 := by
  cases hf : getField row a <;> simp [processAsset, hf, h]

theorem processAsset_fst_self_none {denom : Denom} {lp : Option ℚ} {i : ℕ} {row : Row}
    {st : BaseState} {a : String} {v : ℚ} (hst : st a = none) (hf : getField row a = some v) :
    (processAsset denom true lp i row st a).1 a = some (transformValue denom lp row v) := by
  simp [processAsset, hf, hst]

theorem processAsset_fst_self_kept {denom : Denom} {lp : Option ℚ} {i : ℕ} {row : Row}
    {st : BaseState} {a : String} {c : ℚ} (hst : st a = some c) (hi : i ≠ 0) :
    (processAsset denom true lp i row st a).1 a = st a := by
  cases hf : getField row a with
  | none => simp [processAsset, hf]
  | some v =>
    simp [processAsset, hf, hst, beq_eq_false_iff_ne.mpr hi]

theorem processAsset_snd_capture_nonzero {denom : Denom} {lp : Option ℚ} {i : ℕ} {row : Row}
    {st : BaseState} {a : String} {v : ℚ} (hst : st a = none) (hf : getField row a = some v)
    (ht : transformValue denom lp row v ≠ 0) :
    (processAsset denom true lp i row st a).2 = some 100 := by
  have h100 : round4 (transformValue denom lp row v / transformValue denom lp row v * 100) =
      100 := by
    rw [div_self ht, one_mul]
    norm_num [round4_eq]
  have r100 : round4 100 = 100 := by norm_num [round4_eq]
  simp [processAsset, hf, hst, truthy, ht, h100, r100]

theorem processAsset_snd_capture_zero {denom : Denom} {lp : Option ℚ} {i : ℕ} {row : Row}
    {st : BaseState} {a : String} {v : ℚ} (hst : st a = none) (hf : getField row a = some v)
    (ht : transformValue denom lp row v = 0) :
    (processAsset denom true lp i row st a).2 =
      some (round4 (transformValue denom lp row v)) := by
  simp [processAsset, hf, hst, truthy, ht]

theorem processAsset_snd_base_zero {denom : Denom} {lp : Option ℚ} {i : ℕ} {row : Row}
    {st : BaseState} {a : String} {v : ℚ} (hst : st a = some 0) (hi : i ≠ 0)
    (hf : getField row a = some v) :
    (processAsset denom true lp i row st a).2 =
      some (round4 (transformValue denom lp row v)) := by
  simp [processAsset, hf, hst, truthy, hi]

theorem processAssets_fst_untouched {denom : Denom} {idx : Bool} {lp : Option ℚ} {i : ℕ}
    {row : Row} {a : String} :
    ∀ (assets : List String) (st : BaseState), a ∉ assets →
    (processAssets denom idx lp i row st assets).1 a = st a
  | [], _, _ => rfl
  | b :: rest, st, hna => by
    simp only [processAssets]
    rw [processAssets_fst_untouched rest _ (fun h => hna (List.mem_cons_of_mem _ h)),
      processAsset_fst_other (fun h : b = a => hna (h ▸ List.mem_cons_self b rest))]

theorem processAssets_fst_field_none {denom : Denom} {lp : Option ℚ} {i : ℕ} {row : Row}
    {a : String} (h : getField row a = none) :
    ∀ (assets : List String) (st : BaseState),
    (processAssets denom true lp i row st assets).1 a = st a
  | [], _ => rfl
  | b :: rest, st => by
    simp only [processAssets]
    rw [processAssets_fst_field_none h rest]
    by_cases hba : b = a
    · subst hba
      rw [processAsset_field_none h]
    · exact processAsset_fst_other hba

theorem processAssets_fst_kept {denom : Denom} {lp : Option ℚ} {i : ℕ} {row : Row}
    {a : String} {c : ℚ} (hi : i ≠ 0) :
    ∀ (assets : List String) (st : BaseState), st a = some c →
    (processAssets denom true lp i row st assets).1 a = st a
  | [], _, _ => rfl
  | b :: rest, st, hst => by
    simp only [processAssets]
    have hfst : (processAsset denom true lp i row st b).1 a = st a := by
      by_cases hba : b = a
      · subst hba
        exact processAsset_fst_self_kept hst hi
      · exact processAsset_fst_other hba
    rw [processAssets_fst_kept hi rest _ (by rw [hfst]; exact hst), hfst]

theorem processAssets_fst_capture {denom : Denom} {lp : Option ℚ} {i : ℕ} {row : Row}
    {a : String} {v : ℚ} (hf : getField row a = some v) :
    ∀ (assets : List String) (st : BaseState), assets.Nodup → a ∈ assets → st a = none →
    (processAssets denom true lp i row st assets).1 a =
      some (transformValue denom lp row v)
  | [], _, _, ha, _ => absurd ha (List.not_mem_nil _)
  | b :: rest, st, hnd, ha, hst => by
    rw [List.nodup_cons] at hnd
    simp only [processAssets]
    by_cases hba : b = a
    · subst hba
      have hfst : (processAsset denom true lp i row st b).1 b =
          some (transformValue denom lp row v) := processAsset_fst_self_none hst hf
      rw [processAssets_fst_untouched rest _ hnd.1]
      exact hfst
    · have hfst : (processAsset denom true lp i row st b).1 a = st a :=
        processAsset_fst_other hba
      have hmem : a ∈ rest := List.mem_of_ne_of_mem (fun h => hba h.symm) ha
      exact processAssets_fst_capture hf rest _ hnd.2 hmem (by rw [hfst]; exact hst)

theorem processAssets_snd_lookup {denom : Denom} {lp : Option ℚ} {i : ℕ} {row : Row}
    {a : String} :
    ∀ (assets : List String) (st : BaseState), a ∈ assets →
    (processAssets denom true lp i row st assets).2.lookup a =
      some ((processAsset denom true lp i row st a).2)
  | [], _, h => absurd h (List.not_mem_nil _)
  | b :: rest, st, h => by
    simp only [processAssets]
    by_cases hba : a = b
    · subst hba
      simp [List.lookup]
    · have hbeq : (a == b) = false := beq_eq_false_iff_ne.mpr hba
      simp only [List.lookup, hbeq]
      have hmem : a ∈ rest := List.mem_of_ne_of_mem hba h
      rw [processAssets_snd_lookup rest _ hmem]
      have hcongr : (processAsset denom true lp i row st b).1 a = st a :=
        processAsset_fst_other (fun hc => hba hc.symm)
      rw [processAsset_snd_congr hcongr]

theorem getField_of_lookup {r : Row} {a : String} {x : Option ℚ}
    (h : r.fields.lookup a = some x) : getField r a = x := by
  unfold getField
  rw [h]

theorem chartGo_first100 {denom : Denom} {lp : Option ℚ} {a : String} (ha : a ∈ ASSETS) :
    ∀ (rows : List Row) (j0 i : ℕ) (st : BaseState), st a = none →
    (∀ j, j < j0 → ∀ r, rows.get? j = some r → getField r a = none) →
    ∀ (r0 : Row) (v0 : ℚ), rows.get? j0 = some r0 → getField r0 a = some v0 →
    transformValue denom lp r0 v0 ≠ 0 →
    ∃ r', (chartGo denom true lp i st rows).get? j0 = some r' ∧ getField r' a = some 100
  | [], _, _, _, _, _, r0, v0, hw, _, _ => by simp at hw
  | r :: rs, 0, i, st, hst, _, r0, v0, hw, hv, ht => by
    rw [List.get?_cons_zero] at hw
    injection hw with hw
    subst hw
    refine ⟨_, rfl, ?_⟩
    have hlk : (Row.mk r.date (processAssets denom true lp i r st ASSETS).2).fields.lookup a =
        some ((processAsset denom true lp i r st a).2) :=
      processAssets_snd_lookup ASSETS st ha
    rw [getField_of_lookup hlk]
    exact processAsset_snd_capture_nonzero hst hv ht
  | r :: rs, (j0 + 1), i, st, hst, hprev, r0, v0, hw, hv, ht => by
    rw [List.get?_cons_succ] at hw
    have hr : getField r a = none := hprev 0 (Nat.succ_pos _) r rfl
    have hst1 : (processAssets denom true lp i r st ASSETS).1 a = st a :=
      processAssets_fst_field_none hr ASSETS st
    have htail := chartGo_first100 ha rs j0 (i + 1)
      ((processAssets denom true lp i r st ASSETS).1) (by rw [hst1]; exact hst)
      (fun j hj r' hr' => hprev (j + 1) (Nat.succ_lt_succ hj) r' hr')
      r0 v0 hw hv ht
    obtain ⟨r', hr', hf'⟩ := htail
    refine ⟨r', ?_, hf'⟩
    rw [show (chartGo denom true lp i st (r :: rs)).get? (j0 + 1) =
      (chartGo denom true lp (i + 1)
        ((processAssets denom true lp i r st ASSETS).1) rs).get? j0 from rfl]
    exact hr'

theorem chartGo_col_of_base {denom : Denom} {lp : Option ℚ} {a : String} (ha : a ∈ ASSETS) :
    ∀ (rows : List Row) (i : ℕ) (st : BaseState), st a = some 0 → i ≠ 0 →
    ∀ j, ((chartGo denom true lp i st rows).get? j).map (fun r => getField r a) =
      (rows.get? j).map (fun r => (getField r a).map
        (fun v => round4 (transformValue denom lp r v)))
  | [], _, _, _, _, _ => rfl
  | r :: rs, i, st, hst, hi, 0 => by
    rw [show (chartGo denom true lp i st (r :: rs)).get? 0 =
      some (Row.mk r.date (processAssets denom true lp i r st ASSETS).2) from rfl,
      show ((r :: rs) : List Row).get? 0 = some r from rfl]
    simp only [Option.map_some']
    have hlk : (Row.mk r.date (processAssets denom true lp i r st ASSETS).2).fields.lookup a =
        some ((processAsset denom true lp i r st a).2) :=
      processAssets_snd_lookup ASSETS st ha
    rw [getField_of_lookup hlk]
    cases hf : getField r a with
    | none =>
      have hsnd : (processAsset denom true lp i r st a).2 = none := by
        rw [processAsset_field_none hf]
      rw [hsnd]
      rfl
    | some v =>
      rw [processAsset_snd_base_zero hst hi hf]
      rfl
  | r :: rs, i, st, hst, hi, (j + 1) => by
    rw [show (chartGo denom true lp i st (r :: rs)).get? (j + 1) =
      (chartGo denom true lp (i + 1)
        ((processAssets denom true lp i r st ASSETS).1) rs).get? j from rfl,
      show ((r :: rs) : List Row).get? (j + 1) = rs.get? j from rfl]
    have hst1 : (processAssets denom true lp i r st ASSETS).1 a = st a :=
      processAssets_fst_kept hi ASSETS st hst
    exact chartGo_col_of_base ha rs (i + 1) _ (by rw [hst1]; exact hst)
      (Nat.succ_ne_zero i) j

theorem chartGo_col_pre {denom : Denom} {lp : Option ℚ} {a : String} (ha : a ∈ ASSETS) :
    ∀ (rows : List Row) (j0 i : ℕ) (st : BaseState), st a = none →
    (∀ j, j < j0 → ∀ r, rows.get? j = some r → getField r a = none) →
    ∀ (r0 : Row) (v0 : ℚ), rows.get? j0 = some r0 → getField r0 a = some v0 →
    transformValue denom lp r0 v0 = 0 →
    ∀ j, ((chartGo denom true lp i st rows).get? j).map (fun r => getField r a) =
      (rows.get? j).map (fun r => (getField r a).map
        (fun v => round4 (transformValue denom lp r v)))
  | [], _, _, _, _, _, r0, v0, hw, _, _, _ => by simp at hw
  | r :: rs, 0, i, st, hst, _, r0, v0, hw, hv, ht, 0 => by
    rw [List.get?_cons_zero] at hw
    injection hw with hw
    subst hw
    rw [show (chartGo denom true lp i st (r :: rs)).get? 0 =
      some (Row.mk r.date (processAssets denom true lp i r st ASSETS).2) from rfl,
      show ((r :: rs) : List Row).get? 0 = some r from rfl]
    simp only [Option.map_some']
    have hlk : (Row.mk r.date (processAssets denom true lp i r st ASSETS).2).fields.lookup a =
        some ((processAsset denom true lp i r st a).2) :=
      processAssets_snd_lookup ASSETS st ha
    rw [getField_of_lookup hlk, processAsset_snd_capture_zero hst hv ht, hv]
    rfl
  | r :: rs, 0, i, st, hst, hprev, r0, v0, hw, hv, ht, (j + 1) => by
    rw [List.get?_cons_zero] at hw
    injection hw with hw
    subst hw
    rw [show (chartGo denom true lp i st (r :: rs)).get? (j + 1) =
      (chartGo denom true lp (i + 1)
        ((processAssets denom true lp i r st ASSETS).1) rs).get? j from rfl,
      show ((r :: rs) : List Row).get? (j + 1) = rs.get? j from rfl]
    have hst1 : (processAssets denom true lp i r st ASSETS).1 a =
        some (transformValue denom lp r v0) :=
      processAssets_fst_capture hv ASSETS st (by decide) ha hst
    rw [ht] at hst1
    exact chartGo_col_of_base ha rs (i + 1) _ hst1 (Nat.succ_ne_zero i) j
  | r :: rs, (k + 1), i, st, hst, hprev, r0, v0, hw, hv, ht, 0 => by
    rw [List.get?_cons_succ] at hw
    have hr : getField r a = none := hprev 0 (Nat.succ_pos _) r rfl
    rw [show (chartGo denom true lp i st (r :: rs)).get? 0 =
      some (Row.mk r.date (processAssets denom true lp i r st ASSETS).2) from rfl,
      show ((r :: rs) : List Row).get? 0 = some r from rfl]
    simp only [Option.map_some']
    have hlk : (Row.mk r.date (processAssets denom true lp i r st ASSETS).2).fields.lookup a =
        some ((processAsset denom true lp i r st a).2) :=
      processAssets_snd_lookup ASSETS st ha
    rw [getField_of_lookup hlk]
    have hsnd : (processAsset denom true lp i r st a).2 = none := by
      rw [processAsset_field_none hr]
    rw [hsnd, hr]
    rfl
  | r :: rs, (k + 1), i, st, hst, hprev, r0, v0, hw, hv, ht, (j + 1) => by
    rw [List.get?_cons_succ] at hw
    have hr : getField r a = none := hprev 0 (Nat.succ_pos _) r rfl
    have hst1 : (processAssets denom true lp i r st ASSETS).1 a = st a :=
      processAssets_fst_field_none hr ASSETS st
    rw [show (chartGo denom true lp i st (r :: rs)).get? (j + 1) =
      (chartGo denom true lp (i + 1)
        ((processAssets denom true lp i r st ASSETS).1) rs).get? j from rfl,
      show ((r :: rs) : List Row).get? (j + 1) = rs.get? j from rfl]
    exact chartGo_col_pre ha rs k (i + 1) _ (by rw [hst1]; exact hst)
      (fun j' hj' r' hr' => hprev (j' + 1) (Nat.succ_lt_succ hj') r' hr')
      r0 v0 hw hv ht j

theorem chartGo_false_col {denom : Denom} {lp : Option ℚ} {a : String} (ha : a ∈ ASSETS)
    (rows : List Row) (i : ℕ) (st : BaseState) (j : ℕ) :
    ((chartGo denom false lp i st rows).get? j).map (fun r => getField r a) =
      (rows.get? j).map (fun r => (getField r a).map
        (fun v => round4 (transformValue denom lp r v))) := by
  rw [chartGo_false, List.get?_map]
  cases h : rows.get? j with
  | none => rfl
  | some r =>
    simp only [Option.map_some']
    rw [getField_assets_row ha]

/-! ## C7 -/

/-- C7 (amended): with indexing enabled, the chart value at an asset's
first row with a non-null value equals exactly 100, provided the captured
base (that row's transformed value) is nonzero; when the base is zero the
code's `if (baseValues[asset])` guard skips the rescale instead. -/
theorem c7_indexing_base_100 (window : List Row) (denom : Denom) (asset : String)
    (i0 : ℕ) (r0 : Row) (v0 : ℚ) (ha : asset ∈ ASSETS)
    (hw : window.get? i0 = some r0)
    (hprev : ∀ j, j < i0 → ∀ r, window.get? j = some r → getField r asset = none)
    (hv : getField r0 asset = some v0)
    (ht : transformValue denom (latestPCEOf window) r0 v0 ≠ 0) :
    ∃ r', (chartData window denom true).get? i0 = some r' ∧
      getField r' asset = some 100 := by
  have hne : window ≠ [] := by
    intro hcon
    subst hcon
    simp at hw
  rw [chartData_of_ne_nil window denom true hne]
  exact chartGo_first100 ha window i0 0 (fun _ => none) rfl hprev r0 v0 hw hv ht

/-- C7 witness: a one-row window with SPX 50 under USD; the indexed chart
value at the base row is 100. -/
theorem c7_witness :
    ∃ r', (chartData cw7w Denom.USD true).get? 0 = some r' ∧
      getField r' "SPX" = some 100 :=
  c7_indexing_base_100 cw7w Denom.USD "SPX" 0 ⟨"2024-01-01", [("SPX", some 50)]⟩ 50
    (by decide) (by decide) (fun j hj _ _ => absurd hj (Nat.not_lt_zero j)) (by decide)
    (by decide)

/-- C7 counterexample: when the first non-null value is 0 the captured
base is 0, the rescale is skipped, and the base row's chart value is 0,
not 100 within tolerance 1e-4. -/
theorem c7_counterexample :
    getField ((chartData cw7x Denom.USD true).getD 0 default) "SPX" = some 0 ∧
    ¬ |(0 : ℚ) - 100| ≤ 1 / 10000 := by
  refine ⟨?_, by norm_num⟩
  rw [show (chartData cw7x Denom.USD true).getD 0 default =
    Row.mk "2024-01-01" (processAssets Denom.USD true (latestPCEOf cw7x) 0
      (⟨"2024-01-01", [("SPX", some 0)]⟩ : Row) (fun _ => none) ASSETS).2 from rfl]
  have hlk : (Row.mk "2024-01-01" (processAssets Denom.USD true (latestPCEOf cw7x) 0
      (⟨"2024-01-01", [("SPX", some 0)]⟩ : Row) (fun _ => none) ASSETS).2).fields.lookup
        "SPX" =
      some ((processAsset Denom.USD true (latestPCEOf cw7x) 0
        (⟨"2024-01-01", [("SPX", some 0)]⟩ : Row) (fun _ => none) "SPX").2) :=
    processAssets_snd_lookup ASSETS (fun _ => none) (by decide)
  rw [getField_of_lookup hlk]
  have hz : transformValue Denom.USD (latestPCEOf cw7x)
      (⟨"2024-01-01", [("SPX", some 0)]⟩ : Row) 0 = 0 := by decide
  rw [processAsset_snd_capture_zero rfl (by decide) hz, hz]
  norm_num [round4_eq]

/-! ## C10 -/

/-- C10: when an asset's captured base value (the transformed value at its
first non-null row) is exactly 0, the rescale `(value / base) * 100` is
skipped for every row: the indexed chart column equals the unindexed one
(transformed values, only rounded), so the division only runs with a
nonzero base. -/
theorem c10_zero_base_skips_rescale (window : List Row) (denom : Denom) (asset : String)
    (i0 : ℕ) (r0 : Row) (v0 : ℚ) (ha : asset ∈ ASSETS)
    (hw : window.get? i0 = some r0)
    (hprev : ∀ j, j < i0 → ∀ r, window.get? j = some r → getField r asset = none)
    (hv : getField r0 asset = some v0)
    (ht : transformValue denom (latestPCEOf window) r0 v0 = 0) :
    ∀ j, ((chartData window denom true).get? j).map (fun r => getField r asset) =
      ((chartData window denom false).get? j).map (fun r => getField r asset) := by
  intro j
  have hne : window ≠ [] := by
    intro hcon
    subst hcon
    simp at hw
  rw [chartData_of_ne_nil window denom true hne, chartData_of_ne_nil window denom false hne]
  rw [chartGo_col_pre ha window i0 0 (fun _ => none) rfl hprev r0 v0 hw hv ht j,
    chartGo_false_col ha window 0 (fun _ => none) j]

/-- C10 witness: the theorem applied to the zero-valued one-row window,
instantiated at row 0. -/
theorem c10_witness :
    ((chartData cw10 Denom.USD true).get? 0).map (fun r => getField r "SPX") =
      ((chartData cw10 Denom.USD false).get? 0).map (fun r => getField r "SPX") :=
  c10_zero_base_skips_rescale cw10 Denom.USD "SPX" 0 ⟨"2024-01-01", [("SPX", some 0)]⟩ 0
    (by decide) (by decide) (fun j hj _ _ => absurd hj (Nat.not_lt_zero j)) (by decide)
    (by decide) 0
